import Mathlib

/-!
Verification development for the `hs_smartfridge.py` inventory engine.

The Python program is shallowly embedded:

* `Item` mirrors the Python `Item` class (mutable `_freshness` becomes
  explicit state passing; `spoil` returns the pair (return value, updated
  item)).
* Python's insertion-ordered `dict` for `_item_counter` is an association
  list with Python update semantics (`dictGet`/`dictSet`/`dictPop`).
* The `_cabinet` list holds *references* to item objects.  To model Python
  object identity faithfully (`put` extends the cabinet with
  `[get_item(name)] * quantity`, i.e. with `quantity` aliases of ONE
  object), a fridge carries a `store : List Item` heap and the cabinet is a
  list of store indices.
* A Python `raise` is an explicit error value.  Operations return the state
  at the moment the exception propagates (for `put`/`exit` every raise
  happens before any mutation; `daily_update` can raise mid-loop, and the
  partially mutated state is returned alongside the error).
-/

namespace HsSmartFridge

/-- The exceptions the Python code can raise, by role:
`invalidArgument` (RuntimeError in `Item.__init__`),
`capacityExceeded` (RuntimeError in `put`), `notFound` (KeyError in `exit`),
`insufficientStock` (ValueError in `exit`),
`dictMutatedDuringIteration` (RuntimeError from popping `_item_counter`
while iterating it in `daily_update`), and `keyError` (KeyError from
`spoil_item[item.name] +=` on a missing key in `daily_update`). -/
inductive PyError where
  | invalidArgument
  | capacityExceeded
  | notFound
  | insufficientStock
  | dictMutatedDuringIteration
  | keyError
  deriving DecidableEq, Repr

/-- The `Item` object state: `_name`, `_freshness`, `_daily_spoil`. -/
structure Item where
  name : String
  freshness : Int
  dailySpoil : Int
  deriving DecidableEq, Repr

instance : Inhabited Item := ⟨⟨"", 0, 0⟩⟩

/-- `Item.__init__`: raises when `daily_spoil < 0`, otherwise builds the item. -/
def Item.construct (name : String) (freshness daily_spoil : Int) : Except PyError Item :=
  if daily_spoil < 0 then .error .invalidArgument
  else .ok ⟨name, freshness, daily_spoil⟩

/-- The `non_perishable` property: `True if not self._daily_spoil else False`. -/
def Item.non_perishable (it : Item) : Bool := it.dailySpoil = 0

/-- The `freshness` property: `-1` when `_daily_spoil == 0`, else the stored value. -/
def Item.freshnessProp (it : Item) : Int :=
  if it.dailySpoil = 0 then -1 else it.freshness

/-- `Item.spoil`: returns `-1` untouched when `not self._daily_spoil`; otherwise
stores `self._freshness - self._daily_spoil if self._freshness > self._daily_spoil
else 0` and returns it.  Result is (return value, updated object). -/
def Item.spoil (it : Item) : Int × Item :=
  if it.dailySpoil = 0 then (-1, it)
  else
    let f := if it.freshness > it.dailySpoil then it.freshness - it.dailySpoil else 0
    (f, { it with freshness := f })

/-- The `Freshness` enum lookup with the unknown-name fallback of `get_item`:
chicken → 9, apple → 14, otherwise 1. -/
def freshnessDefault (name : String) : Int :=
  if name = "chicken" then 9 else if name = "apple" then 14 else 1

/-- The `DailySpoil` enum lookup with the unknown-name fallback of `get_item`:
chicken → 3, apple → 2, waterbottle → 0, otherwise 0. -/
def dailySpoilDefault (name : String) : Int :=
  if name = "chicken" then 3
  else if name = "apple" then 2
  else if name = "waterbottle" then 0
  else 0

/-- `get_item(name)` as called by `put` (both optional arguments left `None`). -/
def get_item (name : String) : Item :=
  ⟨name, freshnessDefault name, dailySpoilDefault name⟩

/-- `_item_counter`: a Python (insertion-ordered) dict as an association list. -/
abbrev Counter := List (String × Int)

/-- Dict lookup (`d.get(k)` / `d[k]`). -/
def dictGet (d : Counter) (k : String) : Option Int :=
  match d with
  | [] => none
  | (k2, v) :: rest => if k2 = k then some v else dictGet rest k

/-- Dict store `d[k] = v`: updates in place when present, appends when absent
(Python dicts preserve insertion order). -/
def dictSet (d : Counter) (k : String) (v : Int) : Counter :=
  match d with
  | [] => [(k, v)]
  | (k2, v2) :: rest => if k2 = k then (k2, v) :: rest else (k2, v2) :: dictSet rest k v

/-- Dict removal `d.pop(k)`. -/
def dictPop (d : Counter) (k : String) : Counter :=
  match d with
  | [] => []
  | (k2, v2) :: rest => if k2 = k then rest else (k2, v2) :: dictPop rest k

/-- The `SmartFridge` object state.  `store` is the heap of `Item` objects and
`cabinet` (`_cabinet`) holds store indices, so Python aliasing is preserved. -/
structure SmartFridge where
  cap : Int
  store : List Item
  cabinet : List Nat
  item_counter : Counter
  freshness_threshold : Int
  deriving DecidableEq, Repr

/-- `SmartFridge.__init__(capacity)` with the default `freshness_threshold=2`. -/
def SmartFridge.init (capacity : Int) : SmartFridge :=
  ⟨capacity, [], [], [], 2⟩

/-- Dereference a cabinet slot. -/
def itemAt (store : List Item) (i : Nat) : Item := store.getD i default

/-- The cabinet viewed as the sequence of item values it references
(what Python's `for item in self._cabinet` iterates over). -/
def SmartFridge.units (s : SmartFridge) : List Item := s.cabinet.map (itemAt s.store)

/-- `sum(self._item_counter.values())`. -/
def countsSum (s : SmartFridge) : Int := (s.item_counter.map Prod.snd).sum

/-- How many cabinet units carry a given name. -/
def unitCount (s : SmartFridge) (name : String) : Nat :=
  (s.units.filter (fun it => it.name == name)).length

/-- `SmartFridge.put`: raises (before any mutation) when
`item_quantity > self._cap - len(self._cabinet)`; otherwise extends the
cabinet with `[get_item(item_name)] * item_quantity` — `item_quantity`
aliases of ONE freshly allocated object — and bumps the counter entry.
Python's `list * n` is empty for `n <= 0`, hence `Int.toNat`. -/
def SmartFridge.put (s : SmartFridge) (item_name : String) (item_quantity : Int) :
    SmartFridge × Option PyError :=
  if item_quantity > s.cap - (s.cabinet.length : Int) then (s, some .capacityExceeded)
  else
    ({ s with
        store := s.store ++ [get_item item_name],
        cabinet := s.cabinet ++ List.replicate item_quantity.toNat s.store.length,
        item_counter := dictSet s.item_counter item_name
          ((dictGet s.item_counter item_name).getD 0 + item_quantity) },
     none)

/-- The scan loop of `exit`: walks the cabinet while
`idx < len(cabinet) and item_exited < item_quantity`, copying mismatching
slots into `_new_cab` and counting matches.  Returns (`_new_cab` so far,
final `idx`, i.e. the number of slots consumed). -/
def exitScan (store : List Item) (item_name : String) (item_quantity : Int) :
    List Nat → Int → List Nat × Nat
  | [], _ => ([], 0)
  | i :: rest, item_exited =>
    if item_exited < item_quantity then
      if (itemAt store i).name ≠ item_name then
        let r := exitScan store item_name item_quantity rest item_exited
        (i :: r.1, r.2 + 1)
      else
        let r := exitScan store item_name item_quantity rest (item_exited + 1)
        (r.1, r.2 + 1)
    else ([], 0)

/-- The zero-stock notification text `MESSAGE_ITEM_ZERO_STOCK.format(...)`. -/
def zeroStockMsg (item_name : String) : String :=
  "Item stock runs out: " ++ item_name

/-- `SmartFridge.exit`: raises `notFound` when the name is not a counter key
and `insufficientStock` when `item_quantity` exceeds the tracked count (both
before any mutation).  Otherwise runs the scan loop and — faithfully to the
source's `if idx < len(self._cabinet) - 1` — re-appends the unscanned tail
`cabinet[idx:]` ONLY when at least two slots follow `idx - 1`; decrements the
counter and notifies when the new count is exactly `0`.  Result is
(state, notifications, error). -/
def SmartFridge.exit (s : SmartFridge) (item_name : String) (item_quantity : Int) :
    SmartFridge × List String × Option PyError :=
  match dictGet s.item_counter item_name with
  | none => (s, [], some .notFound)
  | some c =>
    if item_quantity > c then (s, [], some .insufficientStock)
    else
      let r := exitScan s.store item_name item_quantity s.cabinet 0
      let new_cab := if r.2 < s.cabinet.length - 1 then r.1 ++ s.cabinet.drop r.2 else r.1
      ({ s with cabinet := new_cab,
                item_counter := dictSet s.item_counter item_name (c - item_quantity) },
       if c - item_quantity = 0 then [zeroStockMsg item_name] else [],
       none)

/-- First counter key holding value `0`, in dict (insertion) order.  The prune
loop of `daily_update` notifies and pops this key, and then the very next
call to the dict iterator raises `RuntimeError: dictionary changed size
during iteration`, so at most one key is ever pruned. -/
def findFirstZero : Counter → Option String
  | [] => none
  | (k, v) :: rest => if v = 0 then some k else findFirstZero rest

/-- The decay loop of `daily_update`: for each cabinet slot in order, skip
non-perishable items, otherwise mutate the referenced store cell via `spoil`.
When the returned freshness is `<= freshness_threshold` the source executes
`spoil_item[item.name] += spoil_item.get(item.name, 0) + 1`, whose left-hand
read raises `KeyError` because the key was never initialised — the loop stops
there with the store decayed up to and including the offending slot. -/
def decayScan (threshold : Int) : List Item → List Nat → List Item × Option PyError
  | store, [] => (store, none)
  | store, i :: rest =>
    let it := itemAt store i
    if it.non_perishable then decayScan threshold store rest
    else
      let r := it.spoil
      let store2 := store.set i r.2
      if r.1 ≤ threshold then (store2, some .keyError)
      else decayScan threshold store2 rest

/-- `SmartFridge.daily_update`.  Phase 1 (prune): iterate `_item_counter`;
on the first zero-count entry, notify, pop it, and raise
`dictMutatedDuringIteration` (the Python `for` raises on its next step).
Phase 2 (decay): run the decay loop; any threshold crossing raises
`keyError`, so `spoil_item` is empty whenever phase 3 is reached and the
spoilage-notification loop never emits anything.
Result is (state, notifications, error). -/
def SmartFridge.daily_update (s : SmartFridge) : SmartFridge × List String × Option PyError :=
  match findFirstZero s.item_counter with
  | some k =>
    ({ s with item_counter := dictPop s.item_counter k }, [zeroStockMsg k],
     some .dictMutatedDuringIteration)
  | none =>
    let r := decayScan s.freshness_threshold s.store s.cabinet
    ({ s with store := r.1 }, [], r.2)

/-- Insert into a ≤-sorted list of names. -/
def insertSorted (x : String) : List String → List String
  | [] => [x]
  | y :: rest => if x ≤ y then x :: y :: rest else y :: insertSorted x rest

/-- `sorted(keys)`: Python's ascending (code-point lexicographic) string sort. -/
def sortNames : List String → List String
  | [] => []
  | x :: rest => insertSorted x (sortNames rest)

/-- One `DISPLAY_TEMPLATE_ITEM` line plus the newline `display` appends. -/
def countLine (d : Counter) (item_name : String) : String :=
  item_name ++ ", " ++ toString ((dictGet d item_name).getD 0) ++ " Count" ++ "\n"

/-- The count-mode body loop of `display` over the sorted names. -/
def displayCountLines (d : Counter) : List String → String
  | [] => ""
  | n :: rest => countLine d n ++ displayCountLines d rest

/-- One `DISPLAY_TEMPLATE_ITEM_NONPERISH` line plus its newline. -/
def nonPerishLine (d : Counter) (it : Item) : String :=
  it.name ++ ", non-perishable, " ++ toString ((dictGet d it.name).getD 0) ++ " Count" ++ "\n"

/-- One `DISPLAY_TEMPLATE_ITEM_PERISHABLE` line plus its newline (uses the
`freshness` property). -/
def perishLine (it : Item) : String :=
  it.name ++ ", freshness at " ++ toString it.freshnessProp ++ "\n"

/-- The inner cabinet scan of freshness-mode `display` for one name: skip
mismatching items; a non-perishable match emits one line and `break`s; a
perishable match emits its line and continues. -/
def freshScanItems (d : Counter) (item_name : String) : List Item → String
  | [] => ""
  | it :: rest =>
    if it.name ≠ item_name then freshScanItems d item_name rest
    else if it.non_perishable then nonPerishLine d it
    else perishLine it ++ freshScanItems d item_name rest

/-- The freshness-mode body loop of `display` over the sorted names. -/
def displayFreshLines (d : Counter) (units : List Item) : List String → String
  | [] => ""
  | n :: rest => freshScanItems d n units ++ displayFreshLines d units rest

/-- `SmartFridge.display(show_freshness, redirect=True)`: the returned text.
Note the source gives the empty-fridge body no trailing newline, so the total
line is concatenated directly onto it. -/
def SmartFridge.display (s : SmartFridge) (show_freshness : Bool) : String :=
  (if s.item_counter.isEmpty then "Empty fridge: No item found"
   else if show_freshness = false then
     "Item(s) in fridge:\n" ++
       displayCountLines s.item_counter (sortNames (s.item_counter.map Prod.fst))
   else
     "Item(s) in fridge with freshness:\n" ++
       displayFreshLines s.item_counter s.units (sortNames (s.item_counter.map Prod.fst)))
  ++ "Total item count: " ++ toString s.cabinet.length ++ "\n"

/-- Concatenation of a list of lines. -/
def joinStrings : List String → String
  | [] => ""
  | x :: rest => x ++ joinStrings rest

/-- The freshness-mode per-name block exactly as the specification words it:
the *first* cabinet unit of the name decides — non-perishable gives a single
count line, perishable gives one freshness line per matching unit in storage
order; a tracked name with no cabinet unit contributes nothing. -/
def freshBlockClaimed (d : Counter) (item_name : String) (units : List Item) : String :=
  match units.filter (fun it => it.name == item_name) with
  | [] => ""
  | first :: _ =>
    if first.non_perishable then nonPerishLine d first
    else joinStrings ((units.filter (fun it => it.name == item_name)).map perishLine)

/-- The summary text exactly as the claim states it: the fixed empty-fridge
line, or one count line per tracked name in ascending order, or the per-name
freshness blocks in ascending order — followed by the trailing total line.
No header lines, and the empty-fridge text is a full line of its own. -/
def displayClaimed (s : SmartFridge) (show_freshness : Bool) : String :=
  (if s.item_counter.isEmpty then "Empty fridge: No item found\n"
   else if show_freshness = false then
     joinStrings ((sortNames (s.item_counter.map Prod.fst)).map
       (fun n => countLine s.item_counter n))
   else
     joinStrings ((sortNames (s.item_counter.map Prod.fst)).map
       (fun n => freshBlockClaimed s.item_counter n s.units)))
  ++ "Total item count: " ++ toString s.units.length ++ "\n"

/-- The summary text as the amended claim states it: as `displayClaimed`, but
the two non-empty bodies are preceded by their header lines and the
empty-fridge text is NOT newline-terminated (the total line runs on). -/
def displayAmended (s : SmartFridge) (show_freshness : Bool) : String :=
  (if s.item_counter.isEmpty then "Empty fridge: No item found"
   else if show_freshness = false then
     "Item(s) in fridge:\n" ++ joinStrings ((sortNames (s.item_counter.map Prod.fst)).map
       (fun n => countLine s.item_counter n))
   else
     "Item(s) in fridge with freshness:\n" ++
       joinStrings ((sortNames (s.item_counter.map Prod.fst)).map
         (fun n => freshBlockClaimed s.item_counter n s.units)))
  ++ "Total item count: " ++ toString s.units.length ++ "\n"

/-- All units of one name agree on perishability.  Every state reachable by
the public operations satisfies this, because `put` resolves items from the
name-keyed default table and `spoil` never changes `_daily_spoil`. -/
def NameHomogeneous (units : List Item) : Prop :=
  ∀ it1 ∈ units, ∀ it2 ∈ units, it1.name = it2.name → it1.non_perishable = it2.non_perishable

instance (units : List Item) : Decidable (NameHomogeneous units) := by
  unfold NameHomogeneous
  infer_instance

/-! ### Concrete scenarios used to exhibit the divergences between code and spec -/

/-- Capacity-20 fridge after `put("chicken", 4)` then `exit("chicken", 3)`. -/
def fridgeC1 : SmartFridge :=
  ((((SmartFridge.init 20).put "chicken" 4).1).exit "chicken" 3).1

/-- Capacity-10 fridge after `put("apple", 1)` then `put("chicken", 1)`. -/
def fridgeC2 : SmartFridge :=
  (((SmartFridge.init 10).put "apple" 1).1.put "chicken" 1).1

/-- Capacity-10 fridge (threshold 2) after `put("chicken", 1)`. -/
def fridgeC3 : SmartFridge := ((SmartFridge.init 10).put "chicken" 1).1

/-- Capacity-20 fridge after `put("chicken", 1)` then `exit("chicken", 1)`:
the counter holds `chicken → 0`. -/
def fridgeC4 : SmartFridge :=
  (((SmartFridge.init 20).put "chicken" 1).1.exit "chicken" 1).1

/-- Capacity-20 fridge after `put("chicken", 2)`. -/
def fridgeC5 : SmartFridge := ((SmartFridge.init 20).put "chicken" 2).1

/-- C1: the claimed invariant `sum(counts.values()) == len(units)` FAILS after a
successful `exit`.  On a capacity-20 fridge, `put("chicken", 4)` then
`exit("chicken", 3)` both succeed, yet the counter sums to 1 while the cabinet
holds 0 units: the tail-restore guard `if idx < len(self._cabinet) - 1` skips
re-appending the one remaining chicken, so it vanishes from the cabinet while
still being counted. -/
theorem exit_breaks_sum_counts_invariant :
    (((SmartFridge.init 20).put "chicken" 4).2 = none) ∧
    (((((SmartFridge.init 20).put "chicken" 4).1).exit "chicken" 3).2.2 = none) ∧
    countsSum fridgeC1 = 1 ∧ fridgeC1.units.length = 0 := by
  refine ⟨rfl, rfl, ?_, ?_⟩ <;> decide

/-- C2: a successful `exit` does NOT always preserve the remaining units.  With
cabinet `[apple, chicken]`, `exit("apple", 1)` succeeds but leaves the cabinet
EMPTY — the chicken unit is dropped because the tail-restore guard
`if idx < len(self._cabinet) - 1` is false when exactly one unit follows the
scan stop — while the counter still records one chicken. -/
theorem exit_drops_unit_after_scan_stop :
    ((fridgeC2.exit "apple" 1).2.2 = none) ∧
    ((fridgeC2.exit "apple" 1).1.units = []) ∧
    (dictGet (fridgeC2.exit "apple" 1).1.item_counter "chicken" = some 1) ∧
    fridgeC2.units.map Item.name = ["apple", "chicken"] := by
  refine ⟨rfl, ?_, ?_, ?_⟩ <;> decide

/-- C3: `daily_update` CRASHES instead of emitting a spoilage notification.
One chicken (freshness 9, spoil 3, threshold 2): the first two sweeps succeed
(9 → 6 → 3), and the third decays it to 0 ≤ 2, whereupon
`spoil_item[item.name] +=` raises `KeyError` (the key was never initialised);
no spoilage notification is ever emitted. -/
theorem daily_update_keyError_instead_of_spoilage_notification :
    ((fridgeC3.daily_update).2.2 = none) ∧
    (((fridgeC3.daily_update).1.daily_update).2.2 = none) ∧
    ((((fridgeC3.daily_update).1.daily_update).1.daily_update).2.2 = some PyError.keyError) ∧
    ((((fridgeC3.daily_update).1.daily_update).1.daily_update).2.1 = []) := by
  refine ⟨rfl, rfl, rfl, rfl⟩

/-- C4: the prune step of `daily_update` RAISES instead of completing.  With the
counter holding `chicken → 0`, the loop pops the entry while iterating the
dict, so the next iterator step raises `RuntimeError: dictionary changed size
during iteration` — the call does not complete normally. -/
theorem daily_update_raises_on_zero_count_prune :
    (dictGet fridgeC4.item_counter "chicken" = some 0) ∧
    ((fridgeC4.daily_update).2.2 = some PyError.dictMutatedDuringIteration) := by
  exact ⟨rfl, rfl⟩

/-- C5: `put` does NOT construct independent items.  `put("chicken", 2)` extends
the cabinet with `[get_item("chicken")] * 2` — two aliases of ONE object — so
one `daily_update` calls `spoil()` twice on that object and both "units" end at
freshness 3 (two decay steps 9 → 6 → 3) instead of 6 (one step each). -/
theorem put_shares_one_item_so_one_sweep_decays_twice :
    ((fridgeC5.daily_update).2.2 = none) ∧
    ((fridgeC5.daily_update).1.units.map Item.freshness = [3, 3]) := by
  refine ⟨rfl, ?_⟩
  decide

/-- On a perishable item the source's conditional `f - d if f > d else 0`
coincides with the clamped subtraction `max 0 (f - d)` on every integer. -/
theorem spoil_eq_clamped (it : Item) (h : ¬ it.dailySpoil = 0) :
    it.spoil =
      (max 0 (it.freshness - it.dailySpoil),
       { it with freshness := max 0 (it.freshness - it.dailySpoil) }) := by
  unfold Item.spoil
  have hmax : (if it.freshness > it.dailySpoil
      then it.freshness - it.dailySpoil else 0) = max 0 (it.freshness - it.dailySpoil) := by
    by_cases h2 : it.freshness > it.dailySpoil
    · simp only [h2, if_true]
      omega
    · simp only [h2, if_false]
      omega
  simp only [h, if_false, hmax]

/-- C6: `spoil` returns `-1` and leaves the item untouched when
`dailySpoil = 0`, and otherwise stores and returns
`max 0 (freshness - dailySpoil)`. -/
theorem spoil_clamps_to_zero (it : Item) :
    it.spoil =
      if it.dailySpoil = 0 then (-1, it)
      else (max 0 (it.freshness - it.dailySpoil),
            { it with freshness := max 0 (it.freshness - it.dailySpoil) }) := by
  by_cases h : it.dailySpoil = 0
  · rw [if_pos h]
    unfold Item.spoil
    simp [h]
  · rw [if_neg h]
    exact spoil_eq_clamped it h

/-- `n` repeated `spoil()` calls on one item. -/
def iterSpoil (it : Item) : Nat → Item
  | 0 => it
  | n + 1 => ((iterSpoil it n).spoil).2

theorem spoil_dailySpoil (it : Item) : (it.spoil).2.dailySpoil = it.dailySpoil := by
  unfold Item.spoil
  by_cases h : it.dailySpoil = 0 <;> simp [h]

theorem iterSpoil_dailySpoil (it : Item) (n : Nat) :
    (iterSpoil it n).dailySpoil = it.dailySpoil := by
  induction n with
  | zero => rfl
  | succ n ih => rw [iterSpoil, spoil_dailySpoil, ih]

theorem spoil_freshness_of_pos (it : Item) (h : 0 < it.dailySpoil) :
    (it.spoil).2.freshness = max 0 (it.freshness - it.dailySpoil) := by
  rw [spoil_eq_clamped it (by omega)]

/-- C7: for every perishable item accepted by the constructor
(`dailySpoil > 0`), the freshness values produced by repeated `spoil()` calls
are non-negative, non-increasing, and absorbed at `0`: once a call yields `0`,
every later call still yields `0`. -/
theorem iterSpoil_monotone_floored (name : String) (f d : Int) (it : Item)
    (hc : Item.construct name f d = Except.ok it) (hd : 0 < d) (n : Nat) :
    0 ≤ (iterSpoil it (n + 1)).freshness ∧
    (iterSpoil it (n + 2)).freshness ≤ (iterSpoil it (n + 1)).freshness ∧
    ((iterSpoil it (n + 1)).freshness = 0 →
      ∀ m : Nat, (iterSpoil it (n + 1 + m)).freshness = 0) := by
  have hit : it.dailySpoil = d := by
    unfold Item.construct at hc
    have hlt : ¬ d < 0 := by omega
    simp only [hlt, if_false, Except.ok.injEq] at hc
    rw [← hc]
  have hpos : 0 < it.dailySpoil := by omega
  have hstep : ∀ k : Nat, (iterSpoil it (k + 1)).freshness =
      max 0 ((iterSpoil it k).freshness - it.dailySpoil) := by
    intro k
    have := spoil_freshness_of_pos (iterSpoil it k) (by rw [iterSpoil_dailySpoil]; exact hpos)
    rw [iterSpoil, this, iterSpoil_dailySpoil]
  refine ⟨?_, ?_, ?_⟩
  · rw [hstep n]; omega
  · have h1 := hstep n
    have h2 : (iterSpoil it (n + 2)).freshness =
        max 0 ((iterSpoil it (n + 1)).freshness - it.dailySpoil) := hstep (n + 1)
    omega
  · intro h0 m
    induction m with
    | zero => exact h0
    | succ m ih =>
      have := hstep (n + 1 + m)
      have harr : n + 1 + (m + 1) = n + 1 + m + 1 := by omega
      rw [harr, hstep (n + 1 + m), ih]
      omega

/-- Witness for C7: the default chicken item (freshness 9, spoil rate 3). -/
theorem iterSpoil_monotone_floored_witness :
    0 ≤ (iterSpoil ⟨"chicken", 9, 3⟩ 1).freshness ∧
    (iterSpoil ⟨"chicken", 9, 3⟩ 2).freshness ≤ (iterSpoil ⟨"chicken", 9, 3⟩ 1).freshness ∧
    ((iterSpoil ⟨"chicken", 9, 3⟩ 1).freshness = 0 →
      ∀ m : Nat, (iterSpoil ⟨"chicken", 9, 3⟩ (1 + m)).freshness = 0) :=
  iterSpoil_monotone_floored "chicken" 9 3 ⟨"chicken", 9, 3⟩ rfl (by decide) 0

/-- C8: `put` fails with `capacityExceeded` exactly when
`quantity > capacity - len(cabinet)`; `exit` fails with `notFound` exactly
when the name has no counter entry and otherwise with `insufficientStock`
exactly when the quantity exceeds the tracked count; every failing call
returns with the state unchanged and no notification (each raise in the
source precedes any mutation). -/
theorem put_exit_error_conditions_all_or_nothing
    (s : SmartFridge) (item_name : String) (q : Int) :
    ((s.put item_name q).2 = some PyError.capacityExceeded ↔
      q > s.cap - (s.cabinet.length : Int)) ∧
    ((s.put item_name q).2 ≠ none → (s.put item_name q).1 = s) ∧
    ((s.exit item_name q).2.2 = some PyError.notFound ↔
      dictGet s.item_counter item_name = none) ∧
    (∀ c : Int, dictGet s.item_counter item_name = some c →
      ((s.exit item_name q).2.2 = some PyError.insufficientStock ↔ q > c)) ∧
    ((s.exit item_name q).2.2 ≠ none →
      (s.exit item_name q).1 = s ∧ (s.exit item_name q).2.1 = []) := by
  refine ⟨?_, ?_, ?_, ?_, ?_⟩
  · unfold SmartFridge.put
    by_cases hcap : q > s.cap - (s.cabinet.length : Int) <;> simp [hcap]
  · unfold SmartFridge.put
    by_cases hcap : q > s.cap - (s.cabinet.length : Int) <;> simp [hcap]
  · unfold SmartFridge.exit
    cases hget : dictGet s.item_counter item_name with
    | none => simp
    | some c =>
      by_cases hq : q > c <;> simp [hq]
  · intro c hc
    unfold SmartFridge.exit
    rw [hc]
    by_cases hq : q > c <;> simp [hq]
  · unfold SmartFridge.exit
    cases hget : dictGet s.item_counter item_name with
    | none => simp
    | some c =>
      by_cases hq : q > c <;> simp [hq]

/-- Capacity-20 fridge holding two chickens, used as a concrete error case. -/
def fridgeC8 : SmartFridge := ((SmartFridge.init 20).put "chicken" 2).1

/-- Witness for C8: asking for 5 chickens when 2 are tracked fails with
`insufficientStock`. -/
theorem put_exit_error_conditions_witness :
    (fridgeC8.exit "chicken" 5).2.2 = some PyError.insufficientStock := by
  have h := put_exit_error_conditions_all_or_nothing fridgeC8 "chicken" 5
  exact (h.2.2.2.1 2 (by decide)).mpr (by decide)

theorem dictGet_dictSet_self (d : Counter) (k : String) (v : Int) :
    dictGet (dictSet d k v) k = some v := by
  induction d with
  | nil => simp [dictSet, dictGet]
  | cons p rest ih =>
    obtain ⟨k2, v2⟩ := p
    by_cases h : k2 = k
    · simp [dictSet, dictGet, h]
    · simp [dictSet, dictGet, h, ih]

theorem dictGet_dictSet_ne (d : Counter) (k k2 : String) (v : Int) (h : k2 ≠ k) :
    dictGet (dictSet d k v) k2 = dictGet d k2 := by
  have h2 : k ≠ k2 := Ne.symm h
  induction d with
  | nil => simp [dictSet, dictGet, h2]
  | cons p rest ih =>
    obtain ⟨k3, v3⟩ := p
    by_cases h3 : k3 = k
    · subst h3
      simp [dictSet, dictGet, h2]
    · simp [dictSet, dictGet, h3, ih]

theorem dictSet_of_absent (d : Counter) (k : String) (v : Int)
    (h : dictGet d k = none) : dictSet d k v = d ++ [(k, v)] := by
  induction d with
  | nil => rfl
  | cons p rest ih =>
    obtain ⟨k2, v2⟩ := p
    by_cases h2 : k2 = k
    · rw [dictGet, if_pos h2] at h
      exact absurd h (by simp)
    · rw [dictGet, if_neg h2] at h
      rw [dictSet, if_neg h2, ih h]
      rfl

theorem findFirstZero_append_zero (d : Counter) (k : String)
    (h : ∀ p ∈ d, p.2 ≠ 0) : findFirstZero (d ++ [(k, 0)]) = some k := by
  induction d with
  | nil => rfl
  | cons p rest ih =>
    obtain ⟨k2, v2⟩ := p
    have hv : v2 ≠ 0 := h (k2, v2) (List.mem_cons_self _ _)
    rw [List.cons_append, findFirstZero, if_neg hv]
    exact ih (fun p hp => h p (List.mem_cons_of_mem _ hp))

/-- A fridge state is well formed when every cabinet slot references an
allocated store cell.  Every state a run of the Python program can be in
satisfies this: the cabinet only ever receives indices of existing objects. -/
def SmartFridge.WF (s : SmartFridge) : Prop := ∀ i ∈ s.cabinet, i < s.store.length

/-- C10: `put` has no lower bound on the quantity.  On any well-formed state
whose cabinet respects the capacity, `put(name, q)` with `q ≤ 0` returns
without raising, leaves the stored units unchanged, and sets `counts[name]`
to its previous value (0 when absent) plus `q`; with `q = 0` on a fresh name
whose counter has no other zero entries, the next sweep's prune step emits
the zero-stock notification for that name; with `q < 0` and a previously
accurate count, the new count drops below the number of stored units. -/
theorem put_accepts_nonpositive_quantity (s : SmartFridge) (item_name : String) (q : Int)
    (hq : q ≤ 0) (hcap : (s.cabinet.length : Int) ≤ s.cap) (hwf : s.WF) :
    (s.put item_name q).2 = none ∧
    (s.put item_name q).1.units = s.units ∧
    dictGet (s.put item_name q).1.item_counter item_name =
      some ((dictGet s.item_counter item_name).getD 0 + q) ∧
    (∀ k, k ≠ item_name →
      dictGet (s.put item_name q).1.item_counter k = dictGet s.item_counter k) ∧
    (q = 0 → dictGet s.item_counter item_name = none →
      (∀ p ∈ s.item_counter, p.2 ≠ 0) →
      ((s.put item_name q).1.daily_update).2.1 = [zeroStockMsg item_name] ∧
      ((s.put item_name q).1.daily_update).2.2 = some PyError.dictMutatedDuringIteration) ∧
    (q < 0 → (dictGet s.item_counter item_name).getD 0 = (unitCount s item_name : Int) →
      ((dictGet (s.put item_name q).1.item_counter item_name).getD 0) <
        (unitCount (s.put item_name q).1 item_name : Int)) := by
  have hnot : ¬ q > s.cap - (s.cabinet.length : Int) := by omega
  have hput : s.put item_name q =
      ({ s with
          store := s.store ++ [get_item item_name],
          cabinet := s.cabinet ++ List.replicate q.toNat s.store.length,
          item_counter := dictSet s.item_counter item_name
            ((dictGet s.item_counter item_name).getD 0 + q) },
       none) := by
    rw [SmartFridge.put, if_neg hnot]
  have htn : q.toNat = 0 := Int.toNat_of_nonpos hq
  have hcab : s.cabinet ++ List.replicate q.toNat s.store.length = s.cabinet := by
    rw [htn, List.replicate_zero, List.append_nil]
  have hunits : (s.put item_name q).1.units = s.units := by
    rw [hput, SmartFridge.units, SmartFridge.units]
    simp only [hcab]
    refine List.map_congr_left ?_
    intro i hi
    rw [itemAt, itemAt]
    exact List.getD_append s.store [get_item item_name] default i (hwf i hi)
  refine ⟨by rw [hput], hunits, ?_, ?_, ?_, ?_⟩
  · rw [hput]
    exact dictGet_dictSet_self s.item_counter item_name _
  · intro k hk
    rw [hput]
    exact dictGet_dictSet_ne s.item_counter item_name k _ hk
  · intro hq0 habs hnz
    have hval : (dictGet s.item_counter item_name).getD 0 + q = 0 := by
      rw [habs, hq0]
      rfl
    have hctr : (s.put item_name q).1.item_counter = s.item_counter ++ [(item_name, 0)] := by
      rw [hput]
      simp only []
      rw [hval, dictSet_of_absent s.item_counter item_name 0 habs]
    have hffz : findFirstZero (s.put item_name q).1.item_counter = some item_name := by
      rw [hctr]
      exact findFirstZero_append_zero s.item_counter item_name hnz
    rw [SmartFridge.daily_update, hffz]
    exact ⟨rfl, rfl⟩
  · intro hneg hprev
    have h3 : dictGet (s.put item_name q).1.item_counter item_name =
        some ((dictGet s.item_counter item_name).getD 0 + q) := by
      rw [hput]
      exact dictGet_dictSet_self s.item_counter item_name _
    have huc : unitCount (s.put item_name q).1 item_name = unitCount s item_name := by
      rw [unitCount, hunits, unitCount]
    rw [h3, huc]
    simp only [Option.getD_some]
    omega

/-- Witness for C10: on a fresh capacity-20 fridge, `put("ghost", 0)`
succeeds and installs the zero-count entry `ghost → 0`. -/
theorem put_accepts_nonpositive_quantity_witness :
    ((SmartFridge.init 20).put "ghost" 0).2 = none ∧
    dictGet ((SmartFridge.init 20).put "ghost" 0).1.item_counter "ghost" = some 0 := by
  have h := put_accepts_nonpositive_quantity (SmartFridge.init 20) "ghost" 0
    (by decide) (by decide) (by intro i hi; cases hi)
  exact ⟨h.1, h.2.2.1⟩

theorem displayCountLines_eq_join (d : Counter) (ns : List String) :
    displayCountLines d ns = joinStrings (ns.map (fun n => countLine d n)) := by
  induction ns with
  | nil => rfl
  | cons n rest ih => rw [displayCountLines, List.map_cons, joinStrings, ih]

theorem displayFreshLines_eq_join (d : Counter) (us : List Item) (ns : List String) :
    displayFreshLines d us ns = joinStrings (ns.map (fun n => freshScanItems d n us)) := by
  induction ns with
  | nil => rfl
  | cons n rest ih => rw [displayFreshLines, List.map_cons, joinStrings, ih]

/-- The freshness-mode scan only looks at the units whose name matches. -/
theorem freshScanItems_filter (d : Counter) (n : String) (us : List Item) :
    freshScanItems d n us = freshScanItems d n (us.filter (fun it => it.name == n)) := by
  induction us with
  | nil => rfl
  | cons it rest ih =>
    by_cases hn : it.name = n
    · have hf : (it :: rest).filter (fun it => it.name == n) =
          it :: rest.filter (fun it => it.name == n) := by
        simp [List.filter_cons, hn]
      rw [hf]
      simp only [freshScanItems]
      rw [if_neg (not_not_intro hn), if_neg (not_not_intro hn)]
      by_cases hp : it.non_perishable
      · rw [if_pos hp, if_pos hp]
      · rw [if_neg hp, if_neg hp, ih]
    · have hf : (it :: rest).filter (fun it => it.name == n) =
          rest.filter (fun it => it.name == n) := by
        simp [List.filter_cons, hn]
      rw [hf, freshScanItems, if_pos hn, ih]

theorem freshScanItems_all_perishable (d : Counter) (n : String) (ms : List Item)
    (hall : ∀ it ∈ ms, it.name = n ∧ it.non_perishable = false) :
    freshScanItems d n ms = joinStrings (ms.map perishLine) := by
  induction ms with
  | nil => rfl
  | cons it rest ih =>
    have h1 := hall it (List.mem_cons_self _ _)
    rw [freshScanItems, if_neg (not_not_intro h1.1), h1.2, if_neg Bool.false_ne_true,
      List.map_cons, joinStrings,
      ih (fun it2 h2 => hall it2 (List.mem_cons_of_mem _ h2))]

/-- Under per-name perishability homogeneity, the source's break-on-first
non-perishable scan produces exactly the block the specification describes. -/
theorem freshScanItems_eq_block (d : Counter) (n : String) (us : List Item)
    (h : ∀ it1 ∈ us, ∀ it2 ∈ us, it1.name = n → it2.name = n →
      it1.non_perishable = it2.non_perishable) :
    freshScanItems d n us = freshBlockClaimed d n us := by
  rw [freshScanItems_filter]
  unfold freshBlockClaimed
  cases hms : us.filter (fun it => it.name == n) with
  | nil => rfl
  | cons first rest2 =>
    have hmem : ∀ it ∈ first :: rest2, it ∈ us ∧ it.name = n := by
      intro it hit
      rw [← hms] at hit
      have h2 := List.mem_filter.mp hit
      refine ⟨h2.1, ?_⟩
      have := h2.2
      simpa using this
    have hfirst := hmem first (List.mem_cons_self _ _)
    by_cases hp : first.non_perishable
    · rw [freshScanItems, if_neg (not_not_intro hfirst.2), if_pos hp]
      exact (if_pos hp).symm
    · have hall : ∀ it ∈ first :: rest2, it.name = n ∧ it.non_perishable = false := by
        intro it hit
        have h1 := hmem it hit
        have heq := h first hfirst.1 it h1.1 hfirst.2 h1.2
        refine ⟨h1.2, ?_⟩
        rw [← heq]
        exact Bool.not_eq_true first.non_perishable |>.mp hp
      rw [freshScanItems_all_perishable d n (first :: rest2) hall]
      exact (if_neg hp).symm

/-- C9 counterexample: already on the empty fridge the summary text is not the
text the claim describes — the source appends the total line directly after
the empty-fridge text with no separating newline. -/
theorem display_ne_claimed_text :
    (SmartFridge.init 20).display false ≠ displayClaimed (SmartFridge.init 20) false := by
  decide

/-- C9 (amended): for every state whose units agree per name on perishability
(true of every state the public operations produce), the text returned by
`display` is the claim's text amended with the two source details: each
non-empty body is preceded by its header line (`Item(s) in fridge:` or
`Item(s) in fridge with freshness:`), and in the empty case the empty-fridge
text is not newline-terminated, so the total line runs on directly. -/
theorem display_matches_amended_claim (s : SmartFridge) (b : Bool)
    (h : NameHomogeneous s.units) :
    s.display b = displayAmended s b := by
  unfold SmartFridge.display displayAmended
  have hlen : s.cabinet.length = s.units.length := by
    rw [SmartFridge.units, List.length_map]
  rw [hlen]
  by_cases he : s.item_counter.isEmpty
  · rw [if_pos he, if_pos he]
  · rw [if_neg he, if_neg he]
    cases b with
    | false =>
      rw [if_pos rfl, if_pos rfl, displayCountLines_eq_join]
    | true =>
      have hbt : ¬ (true = false) := by simp
      rw [if_neg hbt, if_neg hbt, displayFreshLines_eq_join]
      have hcongr : ∀ n ∈ sortNames (s.item_counter.map Prod.fst),
          freshScanItems s.item_counter n s.units =
            freshBlockClaimed s.item_counter n s.units := by
        intro n _
        refine freshScanItems_eq_block s.item_counter n s.units ?_
        intro it1 h1 it2 h2 hn1 hn2
        exact h it1 h1 it2 h2 (by rw [hn1, hn2])
      rw [List.map_congr_left hcongr]

/-- Witness for the amended C9: two chickens and a waterbottle, freshness view. -/
theorem display_matches_amended_claim_witness :
    ((((SmartFridge.init 20).put "chicken" 2).1.put "waterbottle" 1).1.display true) =
      displayAmended ((((SmartFridge.init 20).put "chicken" 2).1.put "waterbottle" 1).1) true :=
  display_matches_amended_claim
    ((((SmartFridge.init 20).put "chicken" 2).1.put "waterbottle" 1).1) true (by decide)

end HsSmartFridge
